import Mathlib

/-!
Shallow embedding of the resumable geocoding batch pipeline from
`geocoding-service-advanced.js` (class `GeocodingServiceAdvanced`).

Modelling conventions:
- JS strings are Lean `String` (char list `String.data`); the address
  normalisation works on `List Char`.
- JS numbers holding counters, delays and indices are `Nat`; coordinates
  (`parseFloat(result.lat)`) are modelled as `Int` (their exact numeric type
  plays no role in any claim checked here).
- The external provider (`axios.get`) is an oracle: for each address and
  attempt number it yields either a candidate payload, an empty candidate
  list, or a transport/timeout error (the `catch` path).
- Timestamps (`new Date()`) are a `Nat` parameter `now`; `toISOString` /
  `toDateString` granularity is collapsed into that single number.
- The in-memory `Map` cache and the `updates` map are association lists with
  JS `Map.set` semantics (replace existing key, else append).
- `this.stats` mutation is explicit state passing.
- Bounded retry (`buscarCoordenadas`, recursive with `tentativa`) is encoded
  with structural fuel: at a call with attempt counter `tentativa`, the fuel
  equals `maxRetries - tentativa`, so the code's test
  `tentativa < this.maxRetries` is exactly `fuel > 0`.
- The batch loop `for (batchIndex = startBatch; batchIndex < totalBatches;…)`
  is encoded with fuel `totalBatches - startBatch`; an interrupted run
  (process killed after a batch boundary) is the same loop stopped after a
  given number of batches, keeping what `saveProgress`/`saveCache` persisted.
-/

namespace Geocode

/-! ### Address normalisation (`getCacheKey`) -/

/-- Whitespace test matching the characters of the JS `\s` class that can
occur in ASCII address strings (space, tab, LF, CR, VT, FF). -/
def isWs (c : Char) : Bool :=
  c == ' ' || c == '\t' || c == '\n' || c == '\r' ||
  c == Char.ofNat 11 || c == Char.ofNat 12

/-- ASCII lower-casing, the fragment of JS `String.prototype.toLowerCase`
relevant to the claims (maps `A`-`Z` to `a`-`z`, leaves the rest alone). -/
def jsToLower (c : Char) : Char :=
  if 65 ≤ c.toNat ∧ c.toNat ≤ 90 then Char.ofNat (c.toNat + 32) else c

/-- `toLowerCase()` applied character-wise. -/
def lowerList (l : List Char) : List Char := l.map jsToLower

/-- Core of `replace(/\s+/g, ' ')`: every maximal whitespace run becomes a
single space.  The boolean records whether the previous character was part of
a whitespace run already replaced. -/
def collapseGo : Bool → List Char → List Char
  | _, [] => []
  | prevWs, c :: rest =>
    if isWs c then
      if prevWs then collapseGo true rest else ' ' :: collapseGo true rest
    else c :: collapseGo false rest

/-- `replace(/\s+/g, ' ')`. -/
def collapseWs (l : List Char) : List Char := collapseGo false l

/-- Drop trailing whitespace (the right half of `trim()`). -/
def dropTrailWs : List Char → List Char
  | [] => []
  | c :: rest =>
    if isWs c && (dropTrailWs rest).isEmpty then [] else c :: dropTrailWs rest

/-- JS `trim()`: drop leading then trailing whitespace. -/
def trimWs (l : List Char) : List Char := dropTrailWs (l.dropWhile isWs)

/-- `getCacheKey` on character lists:
`endereco.toLowerCase().trim().replace(/\s+/g, ' ')`. -/
def getCacheKeyL (l : List Char) : List Char := collapseWs (trimWs (lowerList l))

/-- `getCacheKey(endereco)` from the source. -/
def getCacheKey (s : String) : String := String.mk (getCacheKeyL s.data)

/-- Canonical form used to say two strings "differ only in letter case or in
whitespace run-length": lower-case every character and replace every maximal
whitespace run (including leading/trailing ones) by one space.  Two strings
are related exactly when their canonical forms coincide. -/
def canonKey (s : String) : List Char := collapseWs (lowerList s.data)

/-! ### Data model -/

/-- The `this.stats` object. -/
structure Stats where
  total : Nat
  processed : Nat
  success : Nat
  errors : Nat
  cached : Nat
  startTime : Option Nat
  endTime : Option Nat
deriving DecidableEq, Repr

/-- Candidate returned by the provider (`response.data[0]`). -/
structure GeoPayload where
  lat : Int
  lon : Int
  display_name : String
  importance : Option Int
deriving DecidableEq, Repr

/-- Outcome of one external lookup attempt: a non-empty candidate list, an
empty candidate list (`response.data.length == 0`), or a thrown
transport/timeout error. -/
inductive LookupOutcome where
  | found : GeoPayload → LookupOutcome
  | empty : LookupOutcome
  | transportError : LookupOutcome
deriving DecidableEq, Repr

/-- The resolution object built on success (stored in the cache and copied
onto the record). -/
structure GeoResult where
  latitude : Int
  longitude : Int
  endereco_formatado : String
  confianca : Int
  cached : Bool
deriving DecidableEq, Repr

/-- JS `x || 0` on the optional importance score. -/
def jsOr (o : Option Int) : Int := o.getD 0

/-- One record of the record store (a `cliente`). Fields that the JS object
acquires during processing start as `none` / `false` (JS `undefined`). -/
structure Cliente where
  id : Nat
  nome : String
  endereco : String
  latitude : Option Int
  longitude : Option Int
  endereco_formatado : Option String
  confianca : Option Int
  geocoded : Bool
  data_geocodificacao : Option Nat
  cached : Bool
deriving DecidableEq, Repr

/-- A fresh, unprocessed record. -/
def mkCliente (id : Nat) (nome endereco : String) : Cliente :=
  ⟨id, nome, endereco, none, none, none, none, false, none, false⟩

/-- JS truthiness of an optional number (`undefined` and `0` are falsy). -/
def jsTruthy : Option Int → Bool
  | none => false
  | some v => !(v == 0)

/-- Constructor options actually read by the service. -/
structure RunConfig where
  rateLimitDelay : Nat
  batchSize : Nat
  maxRetries : Nat
  retryDelay : Nat
  cacheEnabled : Bool
deriving DecidableEq, Repr

/-- The in-memory cache (`this.memoryCache`), an insertion-ordered map. -/
abbrev Cache := List (String × GeoResult)

/-- `Map.get` / `Map.has`. -/
def cacheGet : Cache → String → Option GeoResult
  | [], _ => none
  | (k0, v0) :: rest, k => if k0 == k then some v0 else cacheGet rest k

/-- `Map.set`: replace the value of an existing key, else append. -/
def cacheSet : Cache → String → GeoResult → Cache
  | [], k, v => [(k, v)]
  | (k0, v0) :: rest, k, v =>
    if k0 == k then (k0, v) :: rest else (k0, v0) :: cacheSet rest k v

/-! ### `buscarCoordenadas`: one lookup with bounded retry -/

/-- What one call of `buscarCoordenadas` produces: the resolution (or
`null`), the updated stats, how many external requests were issued, and the
list of waits (`sleep(retryDelay)`) performed between consecutive attempts. -/
structure LookupResult where
  resultado : Option GeoResult
  stats : Stats
  attempts : Nat
  sleeps : List Nat
deriving DecidableEq, Repr

/-- Retry recursion of `buscarCoordenadas(endereco, tentativa)`.  `fuel` is
`maxRetries - tentativa`, so `fuel > 0` is the code's
`tentativa < this.maxRetries`. -/
def buscarCoordenadasGo (retryDelay : Nat) (oracle : Nat → LookupOutcome)
    (stats : Stats) (tentativa : Nat) (fuel : Nat) : LookupResult :=
  match oracle tentativa with
  | .found r =>
      ⟨some ⟨r.lat, r.lon, r.display_name, jsOr r.importance, false⟩,
       {stats with success := stats.success + 1}, 1, []⟩
  | .empty =>
      ⟨none, {stats with errors := stats.errors + 1}, 1, []⟩
  | .transportError =>
      match fuel with
      | 0 => ⟨none, {stats with errors := stats.errors + 1}, 1, []⟩
      | f + 1 =>
        let r := buscarCoordenadasGo retryDelay oracle stats (tentativa + 1) f
        {r with attempts := r.attempts + 1, sleeps := retryDelay :: r.sleeps}

/-- `buscarCoordenadas(endereco)`: the retry loop entered at `tentativa = 1`. -/
def buscarCoordenadas (maxRetries retryDelay : Nat) (oracle : Nat → LookupOutcome)
    (stats : Stats) : LookupResult :=
  buscarCoordenadasGo retryDelay oracle stats 1 (maxRetries - 1)

/-! ### `buscarCoordenadasComCache` -/

/-- Result of the cache-aware lookup. -/
structure CacheLookupResult where
  resultado : Option GeoResult
  cache : Cache
  stats : Stats
  externalCalls : Nat
deriving DecidableEq, Repr

/-- `buscarCoordenadasComCache(endereco)`: consult the in-memory cache under
the normalised key; on hit count a cache hit and return the stored value
unchanged; on miss run `buscarCoordenadas` and store a non-null result when
caching is enabled. -/
def buscarCoordenadasComCache (cfg : RunConfig) (oracle : String → Nat → LookupOutcome)
    (cache : Cache) (stats : Stats) (endereco : String) : CacheLookupResult :=
  match cacheGet cache (getCacheKey endereco) with
  | some v => ⟨some v, cache, {stats with cached := stats.cached + 1}, 0⟩
  | none =>
    let r := buscarCoordenadas cfg.maxRetries cfg.retryDelay (oracle endereco) stats
    match r.resultado with
    | some v =>
        ⟨some v,
         if cfg.cacheEnabled then cacheSet cache (getCacheKey endereco) v else cache,
         r.stats, r.attempts⟩
    | none => ⟨none, cache, r.stats, r.attempts⟩

/-! ### The batch pipeline `processarClientesOtimizado` -/

/-- Persisted progress (`saveProgress` / `loadProgress`): the processed ids
and the next batch index.  (The JSON also stores a timestamp and a stats
snapshot; resume reads neither, so they are omitted.) -/
structure Progress where
  processedIds : List Nat
  currentBatch : Nat
deriving DecidableEq, Repr

/-- Record-id keyed map of updated records (the in-place mutations of the
caller's record objects). -/
def updatesSet : List (Nat × Cliente) → Nat → Cliente → List (Nat × Cliente)
  | [], k, v => [(k, v)]
  | (k0, v0) :: rest, k, v =>
    if k0 == k then (k0, v) :: rest else (k0, v0) :: updatesSet rest k v

/-- Lookup in the updates map. -/
def updatesGet : List (Nat × Cliente) → Nat → Option Cliente
  | [], _ => none
  | (k0, v0) :: rest, k => if k0 == k then some v0 else updatesGet rest k

/-- Mutable state of one run of the batch loop. -/
structure LoopState where
  cache : Cache
  diskCache : Cache
  stats : Stats
  processedIds : List Nat
  savedProgress : Option Progress
  updates : List (Nat × Cliente)
  externalCalls : Nat
deriving DecidableEq, Repr

/-- Body of the inner `for (const cliente of lote)` loop: skip records whose
id is already in `processedIds`; otherwise resolve via the cache, mutate the
record, add the id and bump `processed`. -/
def processRecord (cfg : RunConfig) (oracle : String → Nat → LookupOutcome)
    (now : Nat) (s : LoopState) (c : Cliente) : LoopState :=
  if s.processedIds.contains c.id then s else
  let r := buscarCoordenadasComCache cfg oracle s.cache s.stats c.endereco
  let c2 : Cliente :=
    match r.resultado with
    | some g =>
        {c with latitude := some g.latitude, longitude := some g.longitude,
                endereco_formatado := some g.endereco_formatado,
                confianca := some g.confianca, geocoded := true,
                data_geocodificacao := some now, cached := g.cached}
    | none => {c with geocoded := false, data_geocodificacao := some now}
  {s with cache := r.cache,
          stats := {r.stats with processed := r.stats.processed + 1},
          processedIds := s.processedIds ++ [c.id],
          updates := updatesSet s.updates c.id c2,
          externalCalls := s.externalCalls + r.externalCalls}

/-- End-of-batch persistence: `saveProgress(Array.from(processedIds),
batchIndex + 1)` followed by `saveCache()` (which writes only when caching is
enabled and the in-memory cache is non-empty). -/
def saveBatchCheckpoint (cfg : RunConfig) (batchIndex : Nat) (s1 : LoopState) :
    LoopState :=
  {s1 with savedProgress := some ⟨s1.processedIds, batchIndex + 1⟩,
           diskCache := if cfg.cacheEnabled && !s1.cache.isEmpty
                        then s1.cache else s1.diskCache}

/-- The outer batch loop from `batchIndex` with the given fuel
(`totalBatches - batchIndex` for a full run).  After each batch the progress
(`processedIds`, `batchIndex + 1`) and, when enabled and non-empty, the cache
are persisted (`saveProgress` / `saveCache`). -/
def runBatches (cfg : RunConfig) (oracle : String → Nat → LookupOutcome)
    (now : Nat) (pendentes : List Cliente) (batchIndex : Nat) (fuel : Nat)
    (s : LoopState) : LoopState :=
  match fuel with
  | 0 => s
  | f + 1 =>
    let lote := (pendentes.drop (batchIndex * cfg.batchSize)).take cfg.batchSize
    let s1 := lote.foldl (processRecord cfg oracle now) s
    runBatches cfg oracle now pendentes (batchIndex + 1) f
      (saveBatchCheckpoint cfg batchIndex s1)

/-- The pending filter:
`!processedIds.has(id) && (!geocoded || !latitude || !longitude)`. -/
def pendingFilter (processedIds : List Nat) (clientes : List Cliente) : List Cliente :=
  clientes.filter fun c =>
    !(processedIds.contains c.id) &&
    (!c.geocoded || !(jsTruthy c.latitude) || !(jsTruthy c.longitude))

/-- What a run returns / leaves behind: the mutated record set, final stats,
the in-memory and on-disk caches, the last persisted progress, and the total
number of external requests issued. -/
structure RunResult where
  clientes : List Cliente
  stats : Stats
  cache : Cache
  diskCache : Cache
  savedProgress : Option Progress
  externalCalls : Nat
deriving DecidableEq, Repr

/-- Apply the accumulated in-place mutations to the caller's record list. -/
def finishClientes (clientes : List Cliente) (u : List (Nat × Cliente)) : List Cliente :=
  clientes.map fun c => (updatesGet u c.id).getD c

/-- `processarClientesOtimizado(clientes, onProgress, resumeFromProgress)`
run to completion: reset stats, load cache and (when resuming) progress,
filter the pending records, process batches from the persisted
`currentBatch`, set the end time and flush the cache once more. -/
def processarClientesOtimizado (cfg : RunConfig) (oracle : String → Nat → LookupOutcome)
    (now : Nat) (clientes : List Cliente) (diskCache : Cache)
    (diskProgress : Option Progress) (resumeFromProgress : Bool) : RunResult :=
  let stats0 : Stats := ⟨clientes.length, 0, 0, 0, 0, some now, none⟩
  let memCache := if cfg.cacheEnabled then diskCache else []
  let pr := if resumeFromProgress then diskProgress else none
  let processedIds0 := match pr with | some p => p.processedIds | none => []
  let startBatch := match pr with | some p => p.currentBatch | none => 0
  let pendentes := pendingFilter processedIds0 clientes
  let totalBatches := (pendentes.length + cfg.batchSize - 1) / cfg.batchSize
  let s0 : LoopState := ⟨memCache, diskCache, stats0, processedIds0, diskProgress, [], 0⟩
  let s1 := runBatches cfg oracle now pendentes startBatch (totalBatches - startBatch) s0
  let s2 : LoopState :=
    {s1 with stats := {s1.stats with endTime := some now},
             diskCache := if cfg.cacheEnabled && !s1.cache.isEmpty
                          then s1.cache else s1.diskCache}
  ⟨finishClientes clientes s2.updates, s2.stats, s2.cache, s2.diskCache,
   s2.savedProgress, s2.externalCalls⟩

/-- The same run killed right after a batch boundary: the loop stops after
`batchLimit` batches; only what `saveProgress`/`saveCache` wrote survives in
`diskCache`/`savedProgress`, and neither the end time nor the final cache
flush happens. -/
def processarClientesOtimizadoInterrompido (cfg : RunConfig)
    (oracle : String → Nat → LookupOutcome) (now : Nat) (clientes : List Cliente)
    (diskCache : Cache) (diskProgress : Option Progress)
    (resumeFromProgress : Bool) (batchLimit : Nat) : RunResult :=
  let stats0 : Stats := ⟨clientes.length, 0, 0, 0, 0, some now, none⟩
  let memCache := if cfg.cacheEnabled then diskCache else []
  let pr := if resumeFromProgress then diskProgress else none
  let processedIds0 := match pr with | some p => p.processedIds | none => []
  let startBatch := match pr with | some p => p.currentBatch | none => 0
  let pendentes := pendingFilter processedIds0 clientes
  let totalBatches := (pendentes.length + cfg.batchSize - 1) / cfg.batchSize
  let s0 : LoopState := ⟨memCache, diskCache, stats0, processedIds0, diskProgress, [], 0⟩
  let s1 := runBatches cfg oracle now pendentes startBatch
    (min batchLimit (totalBatches - startBatch)) s0
  ⟨finishClientes clientes s1.updates, s1.stats, s1.cache, s1.diskCache,
   s1.savedProgress, s1.externalCalls⟩

/-! ### `ajustarRateLimit` -/

/-- `ajustarRateLimit()`: error rate above 10% raises the delay by 200 capped
at 3000; below 2% (with the delay above 800) lowers it by 100 floored at 800.
`taxaErro > 0.1` is `10 * errors > processed` and `taxaErro < 0.02` is
`50 * errors < processed` (with `taxaErro = 0` when `processed = 0`); on the
small integer counters involved these exact comparisons agree with the JS
float comparisons. -/
def ajustarRateLimit (rateLimitDelay errors processed : Nat) : Nat :=
  if 0 < processed ∧ processed < 10 * errors then
    min (rateLimitDelay + 200) 3000
  else if (processed = 0 ∨ 50 * errors < processed) ∧ 800 < rateLimitDelay then
    max (rateLimitDelay - 100) 800
  else rateLimitDelay

/-- A sequence of governor adjustments from an initial delay; each
observation is a pair `(errors, processed)` of the stats at that moment. -/
def govRun (d0 : Nat) (obs : List (Nat × Nat)) : Nat :=
  obs.foldl (fun d p => ajustarRateLimit d p.1 p.2) d0

/-! ### `gerarRelatorioDetalhado` -/

/-- The `resumo` part of the report. `taxaSucessoTenths` models the string
`((geocodificados / total) * 100).toFixed(1) + '%'` as tenths of a percent
(`1000` renders as `"100.0%"`); `tempoProcessamento` models the
`'N/A'`-or-seconds field. -/
structure RelatorioResumo where
  total : Nat
  geocodificados : Nat
  naoGeocodificados : Nat
  taxaSucessoTenths : Nat
  cacheHits : Nat
  tempoProcessamento : Option Nat
deriving DecidableEq, Repr

/-- The full detailed report. -/
structure RelatorioDetalhado where
  resumo : RelatorioResumo
  estatisticas : Stats
  com_coordenadas : List Cliente
  sem_coordenadas : List Cliente
  com_cache : List Cliente
  processados_hoje : List Cliente
deriving DecidableEq, Repr

/-- `gerarRelatorioDetalhado(clientes)`.  In the source, `this.stats` and
`new Date()` are ambient state; the embedding passes them explicitly as
`stats` and `hoje` to expose every input the function reads. -/
def gerarRelatorioDetalhado (clientes : List Cliente) (stats : Stats)
    (hoje : Nat) : RelatorioDetalhado :=
  let total := clientes.length
  let geocodificados :=
    (clientes.filter fun c =>
      c.geocoded && jsTruthy c.latitude && jsTruthy c.longitude).length
  ⟨⟨total, geocodificados, total - geocodificados,
    geocodificados * 1000 / total,
    (clientes.filter fun c => c.cached).length,
    match stats.endTime, stats.startTime with
    | some e, some s0 => some (e - s0)
    | _, _ => none⟩,
   stats,
   clientes.filter (fun c => jsTruthy c.latitude && jsTruthy c.longitude),
   clientes.filter (fun c => !(jsTruthy c.latitude) || !(jsTruthy c.longitude)),
   clientes.filter (fun c => c.cached),
   clientes.filter (fun c =>
     match c.data_geocodificacao with
     | some d => d == hoje
     | none => false)⟩

/-! ### Stats predicates used by the invariants -/

/-- The per-record accounting identity of one run. -/
abbrev statsInv (st : Stats) : Prop :=
  st.processed = st.success + st.errors + st.cached

/-- Pointwise order on the five counters of `Stats`. -/
abbrev statsLe (a b : Stats) : Prop :=
  a.total ≤ b.total ∧ a.processed ≤ b.processed ∧ a.success ≤ b.success ∧
  a.errors ≤ b.errors ∧ a.cached ≤ b.cached

/-! ### Concrete scenarios -/

/-- Constructor defaults: `rateLimitDelay 1000`, `batchSize 100`,
`maxRetries 3`, `retryDelay 5000`, cache enabled. -/
def cfgDemo : RunConfig := ⟨1000, 100, 3, 5000, true⟩

/-- The same service configured with `batchSize: 1`. -/
def cfgLoteUm : RunConfig := ⟨1000, 1, 3, 5000, true⟩

/-- A provider that resolves every address on the first attempt. -/
def orcSempreAcha : String → Nat → LookupOutcome :=
  fun _ _ => .found ⟨10, 20, "F", some 1⟩

/-- Five records; records 2 and 4 carry case/whitespace variants of the same
address. -/
def cenarioC2 : List Cliente :=
  [mkCliente 1 "n1" "Rua Um", mkCliente 2 "n2" "Main St, City",
   mkCliente 3 "n3" "Rua Tres", mkCliente 4 "n4" "main   st, city",
   mkCliente 5 "n5" "Rua Cinco"]

/-- A full run of the five-record scenario. -/
def execC2 : RunResult :=
  processarClientesOtimizado cfgDemo orcSempreAcha 0 cenarioC2 [] none true

/-- Two fresh records, to be processed in batches of one. -/
def cenarioDupla : List Cliente :=
  [mkCliente 1 "a" "Rua A", mkCliente 2 "b" "Rua B"]

/-- Uninterrupted run over the two records. -/
def execC1Full : RunResult :=
  processarClientesOtimizado cfgLoteUm orcSempreAcha 0 cenarioDupla [] none true

/-- The same run killed right after the first batch boundary. -/
def execC1Inter : RunResult :=
  processarClientesOtimizadoInterrompido cfgLoteUm orcSempreAcha 0 cenarioDupla
    [] none true 1

/-- Resumed run: the record store as mutated so far, plus the persisted cache
and checkpoint of the interrupted run. -/
def execC1Retomada : RunResult :=
  processarClientesOtimizado cfgLoteUm orcSempreAcha 0 execC1Inter.clientes
    execC1Inter.diskCache execC1Inter.savedProgress true

/-- Two records whose addresses normalise to the same cache key. -/
def cenarioC3 : List Cliente :=
  [mkCliente 1 "a" "Alpha  Road", mkCliente 2 "b" "alpha road"]

/-- A full run over the two same-key records. -/
def execC3 : RunResult :=
  processarClientesOtimizado cfgDemo orcSempreAcha 0 cenarioC3 [] none true

/-! ## Theorems -/

/-- Retry recursion under a provider that always fails with a transport
error: every unit of fuel is consumed, one sleep of `retryDelay` separates
consecutive attempts, and the error tally is incremented exactly once. -/
theorem buscarGo_transport_all (rd : Nat) (oracle : Nat → LookupOutcome)
    (stats : Stats) (h : ∀ n, oracle n = .transportError) :
    ∀ fuel tentativa, buscarCoordenadasGo rd oracle stats tentativa fuel =
      ⟨none, {stats with errors := stats.errors + 1}, fuel + 1,
       List.replicate fuel rd⟩ := by
  intro fuel
  induction fuel with
  | zero => intro t; simp [buscarCoordenadasGo, h t]
  | succ f ih => intro t; simp [buscarCoordenadasGo, h t, ih (t + 1), List.replicate_succ]

/-- C4: for an address whose every lookup attempt fails with a
transport/timeout error, `buscarCoordenadas` makes exactly `maxRetries`
attempts, waits the fixed `retryDelay` between consecutive attempts
(`maxRetries - 1` waits), and terminates with `null` and the error tally
incremented once. -/
theorem c4_retry_bound (maxRetries retryDelay : Nat) (oracle : Nat → LookupOutcome)
    (stats : Stats) (hmr : 1 ≤ maxRetries) (h : ∀ n, oracle n = .transportError) :
    buscarCoordenadas maxRetries retryDelay oracle stats =
      ⟨none, {stats with errors := stats.errors + 1}, maxRetries,
       List.replicate (maxRetries - 1) retryDelay⟩ := by
  unfold buscarCoordenadas
  rw [buscarGo_transport_all retryDelay oracle stats h (maxRetries - 1) 1,
    Nat.sub_add_cancel hmr]

/-- Witness for C4 at `maxRetries = 3`. -/
theorem c4_retry_bound_witness :
    1 ≤ 3 ∧
    buscarCoordenadas 3 5000 (fun _ => .transportError) ⟨7, 4, 2, 1, 1, none, none⟩ =
      ⟨none, ⟨7, 4, 2, 2, 1, none, none⟩, 3, [5000, 5000]⟩ :=
  ⟨by decide, by
    rw [c4_retry_bound 3 5000 (fun _ => .transportError) ⟨7, 4, 2, 1, 1, none, none⟩
      (by decide) (fun _ => rfl)]
    decide⟩

/-- C7: a provider answer with zero candidates makes `buscarCoordenadas`
return `null` on that very attempt: one request, no retries, no waits, and
the error tally (which feeds `ajustarRateLimit`) incremented. -/
theorem c7_empty_terminal (maxRetries retryDelay : Nat) (oracle : Nat → LookupOutcome)
    (stats : Stats) (h : oracle 1 = .empty) :
    buscarCoordenadas maxRetries retryDelay oracle stats =
      ⟨none, {stats with errors := stats.errors + 1}, 1, []⟩ := by
  unfold buscarCoordenadas
  generalize maxRetries - 1 = fuel
  cases fuel <;> simp [buscarCoordenadasGo, h]

/-- Witness for C7. -/
theorem c7_empty_terminal_witness :
    (fun (_ : Nat) => LookupOutcome.empty) 1 = .empty ∧
    buscarCoordenadas 3 5000 (fun _ => .empty) ⟨3, 1, 0, 0, 1, none, none⟩ =
      ⟨none, ⟨3, 1, 0, 1, 1, none, none⟩, 1, []⟩ :=
  ⟨rfl, by
    rw [c7_empty_terminal 3 5000 (fun _ => .empty) ⟨3, 1, 0, 0, 1, none, none⟩ rfl]⟩

/-- One governor adjustment keeps a delay that is within `[800, 3000]`
inside that interval. -/
theorem ajustar_mem (d e p : Nat) (h1 : 800 ≤ d) (h2 : d ≤ 3000) :
    800 ≤ ajustarRateLimit d e p ∧ ajustarRateLimit d e p ≤ 3000 := by
  unfold ajustarRateLimit
  split
  · constructor <;> omega
  · split
    · constructor <;> omega
    · exact ⟨h1, h2⟩

/-- C5 (amended): if the configured initial delay lies within
`[minDelay, maxDelay] = [800, 3000]`, then after any sequence of observed
error rates the current delay never leaves that interval. -/
theorem c5_delay_bounds (d0 : Nat) (obs : List (Nat × Nat)) (h1 : 800 ≤ d0)
    (h2 : d0 ≤ 3000) : 800 ≤ govRun d0 obs ∧ govRun d0 obs ≤ 3000 := by
  induction obs generalizing d0 with
  | nil => exact ⟨h1, h2⟩
  | cons a tl ih =>
      have h := ajustar_mem d0 a.1 a.2 h1 h2
      simpa [govRun] using ih (ajustarRateLimit d0 a.1 a.2) h.1 h.2

/-- Witness for C5. -/
theorem c5_delay_bounds_witness :
    (800 ≤ 1000 ∧ 1000 ≤ 3000) ∧
    (800 ≤ govRun 1000 [(1, 1), (0, 20)] ∧ govRun 1000 [(1, 1), (0, 20)] ≤ 3000) :=
  ⟨by decide, c5_delay_bounds 1000 [(1, 1), (0, 20)] (by decide) (by decide)⟩

/-- C5 counterexample: started from the configured initial delay 500 (as the
repository's test harness does), the delay is outside `[800, 3000]` and a
low-error-rate observation leaves it there: the claim's interval invariant
fails for that configured initial delay. -/
theorem c5_initial_delay_escapes :
    govRun 500 [(0, 1)] = 500 ∧
    ¬ (800 ≤ govRun 500 [(0, 1)] ∧ govRun 500 [(0, 1)] ≤ 3000) := by decide

/-- C6 counterexample: two invocations of `gerarRelatorioDetalhado` on equal
record sets but different service stats return different reports, so the
report is not a function of the record set alone. -/
theorem c6_reads_service_state :
    gerarRelatorioDetalhado [] ⟨0, 0, 0, 0, 0, none, none⟩ 0 ≠
      gerarRelatorioDetalhado [] ⟨0, 7, 0, 0, 0, none, none⟩ 0 := by decide

/-- C6 (amended): `gerarRelatorioDetalhado` is a deterministic function of
the record set, the service stats and the current date; its record-derived
fields (`total`, `geocodificados`, `naoGeocodificados`, the success rate,
`cacheHits` and the coordinate/cache buckets) depend on the record set
alone. -/
theorem c6_record_fields_pure (clientes : List Cliente) (st st2 : Stats)
    (hoje hoje2 : Nat) :
    (gerarRelatorioDetalhado clientes st hoje).resumo.total =
      (gerarRelatorioDetalhado clientes st2 hoje2).resumo.total ∧
    (gerarRelatorioDetalhado clientes st hoje).resumo.geocodificados =
      (gerarRelatorioDetalhado clientes st2 hoje2).resumo.geocodificados ∧
    (gerarRelatorioDetalhado clientes st hoje).resumo.naoGeocodificados =
      (gerarRelatorioDetalhado clientes st2 hoje2).resumo.naoGeocodificados ∧
    (gerarRelatorioDetalhado clientes st hoje).resumo.taxaSucessoTenths =
      (gerarRelatorioDetalhado clientes st2 hoje2).resumo.taxaSucessoTenths ∧
    (gerarRelatorioDetalhado clientes st hoje).resumo.cacheHits =
      (gerarRelatorioDetalhado clientes st2 hoje2).resumo.cacheHits ∧
    (gerarRelatorioDetalhado clientes st hoje).com_coordenadas =
      (gerarRelatorioDetalhado clientes st2 hoje2).com_coordenadas ∧
    (gerarRelatorioDetalhado clientes st hoje).sem_coordenadas =
      (gerarRelatorioDetalhado clientes st2 hoje2).sem_coordenadas ∧
    (gerarRelatorioDetalhado clientes st hoje).com_cache =
      (gerarRelatorioDetalhado clientes st2 hoje2).com_cache :=
  ⟨rfl, rfl, rfl, rfl, rfl, rfl, rfl, rfl⟩

/-- C1: interrupting `processarClientesOtimizado` after the first batch
boundary and resuming does not reproduce the uninterrupted run: the resumed
run filters the processed ids out of the pending list and then still skips
`currentBatch` batches of that already-filtered list, so record 2 is never
processed (the resumed run processes zero records), while the uninterrupted
run geocodes both records. -/
theorem c1_resume_skips_pending :
    execC1Full.clientes.map (fun c => c.geocoded) = [true, true] ∧
    execC1Full.stats.processed = 2 ∧
    execC1Inter.savedProgress = some ⟨[1], 1⟩ ∧
    execC1Inter.clientes.map (fun c => c.geocoded) = [true, false] ∧
    execC1Retomada.clientes.map (fun c => c.geocoded) = [true, false] ∧
    execC1Retomada.stats.processed = 0 := by decide

/-- C2: in the five-record scenario the run issues exactly 4 external
lookups and counts 1 cache hit in `stats.cached`, and the report shows a
100.0% success rate; but the report's `cacheHits` field is 0, not 1, because
the resolution stored in (and returned from) the cache carries
`cached: false`. -/
theorem c2_scenario_eval :
    execC2.externalCalls = 4 ∧
    execC2.stats.cached = 1 ∧
    execC2.stats.success = 4 ∧
    (gerarRelatorioDetalhado execC2.clientes execC2.stats 0).resumo.taxaSucessoTenths
      = 1000 ∧
    (gerarRelatorioDetalhado execC2.clientes execC2.stats 0).resumo.cacheHits = 0 := by
  decide

/-- C3: the second record resolves from the cache (the cache-hit counter
reaches 1 and the record is geocoded), yet its `cached` tag stays `false` —
the pipeline copies the stored resolution's `cached: false` instead of
marking a cache origin.  Records resolved by external lookup are also tagged
`false`, which is the correct lookup tag. -/
theorem c3_cache_hit_not_tagged :
    execC3.stats.cached = 1 ∧
    execC3.clientes.map (fun c => c.geocoded) = [true, true] ∧
    execC3.clientes.map (fun c => c.cached) = [false, false] := by decide

/-- Inserting under a key that is absent from the cache preserves every
present entry with its value. -/
theorem cacheGet_set_preserve (cache : Cache) (key k : String) (r v : GeoResult)
    (hnone : cacheGet cache key = none) (hv : cacheGet cache k = some v) :
    cacheGet (cacheSet cache key r) k = some v := by
  induction cache with
  | nil => simp [cacheGet] at hv
  | cons p rest ih =>
      obtain ⟨k0, v0⟩ := p
      by_cases hk : k0 == key
      · simp [cacheGet, hk] at hnone
      · simp only [cacheGet, cacheSet, hk] at hnone hv ⊢
        by_cases hkk : k0 == k
        · simpa [hkk] using hv
        · simp only [hkk, if_false, Bool.false_eq_true] at hv ⊢
          exact ih hnone hv

/-- A failed lookup (`null` result) inserts nothing into the cache. -/
theorem comCache_none_cache_eq (cfg : RunConfig) (oracle : String → Nat → LookupOutcome)
    (cache : Cache) (stats : Stats) (e : String)
    (h : (buscarCoordenadasComCache cfg oracle cache stats e).resultado = none) :
    (buscarCoordenadasComCache cfg oracle cache stats e).cache = cache := by
  unfold buscarCoordenadasComCache at h ⊢
  cases hget : cacheGet cache (getCacheKey e) with
  | some w => simp [hget] at h
  | none =>
      simp only [hget] at h ⊢
      cases hres : (buscarCoordenadas cfg.maxRetries cfg.retryDelay (oracle e) stats).resultado with
      | some w => simp [hres] at h
      | none => simp [hres]

/-- `buscarCoordenadasComCache` never evicts or overwrites a cache entry. -/
theorem comCache_cache_preserve (cfg : RunConfig) (oracle : String → Nat → LookupOutcome)
    (cache : Cache) (stats : Stats) (e : String) (k : String) (v : GeoResult)
    (hv : cacheGet cache k = some v) :
    cacheGet (buscarCoordenadasComCache cfg oracle cache stats e).cache k = some v := by
  unfold buscarCoordenadasComCache
  cases hget : cacheGet cache (getCacheKey e) with
  | some w => simpa [hget] using hv
  | none =>
      simp only [hget]
      cases hres : (buscarCoordenadas cfg.maxRetries cfg.retryDelay (oracle e) stats).resultado with
      | some w =>
          by_cases hen : cfg.cacheEnabled
          · simpa [hres, hen] using
              cacheGet_set_preserve cache (getCacheKey e) k w v hget hv
          · simpa [hres, hen] using hv
      | none => simpa [hres] using hv

/-- The per-record step never evicts or overwrites a cache entry. -/
theorem processRecord_cache_preserve (cfg : RunConfig)
    (oracle : String → Nat → LookupOutcome) (now : Nat) (s : LoopState) (c : Cliente)
    (k : String) (v : GeoResult) (hv : cacheGet s.cache k = some v) :
    cacheGet (processRecord cfg oracle now s c).cache k = some v := by
  unfold processRecord
  split
  · exact hv
  · exact comCache_cache_preserve cfg oracle s.cache s.stats c.endereco k v hv

/-- Processing a whole batch never evicts or overwrites a cache entry. -/
theorem foldl_cache_preserve (cfg : RunConfig) (oracle : String → Nat → LookupOutcome)
    (now : Nat) (lote : List Cliente) :
    ∀ (s : LoopState) (k : String) (v : GeoResult), cacheGet s.cache k = some v →
      cacheGet (lote.foldl (processRecord cfg oracle now) s).cache k = some v := by
  induction lote with
  | nil => intro s k v hv; simpa using hv
  | cons c tl ih =>
      intro s k v hv
      simpa [List.foldl_cons] using
        ih (processRecord cfg oracle now s c) k v
          (processRecord_cache_preserve cfg oracle now s c k v hv)

/-- The batch loop (record processing, progress saves and cache flushes)
never evicts or overwrites an in-memory cache entry. -/
theorem runBatches_cache_preserve (cfg : RunConfig)
    (oracle : String → Nat → LookupOutcome) (now : Nat) (pend : List Cliente) :
    ∀ (fuel bi : Nat) (s : LoopState) (k : String) (v : GeoResult),
      cacheGet s.cache k = some v →
      cacheGet (runBatches cfg oracle now pend bi fuel s).cache k = some v := by
  intro fuel
  induction fuel with
  | zero => intro bi s k v hv; simpa [runBatches] using hv
  | succ f ih =>
      intro bi s k v hv
      simp only [runBatches]
      exact ih (bi + 1) _ k v
        (foldl_cache_preserve cfg oracle now
          ((pend.drop (bi * cfg.batchSize)).take cfg.batchSize) s k v hv)

/-- C8: the address cache stores only successful resolutions — a `null`
lookup result inserts nothing — and an entry present in the cache is never
evicted or overwritten with a different value by any later cache lookup,
record step, or batch of the run. -/
theorem c8_cache_append_only :
    (∀ cfg oracle cache stats e,
        (buscarCoordenadasComCache cfg oracle cache stats e).resultado = none →
        (buscarCoordenadasComCache cfg oracle cache stats e).cache = cache) ∧
    (∀ cfg oracle cache stats e k v, cacheGet cache k = some v →
        cacheGet (buscarCoordenadasComCache cfg oracle cache stats e).cache k = some v) ∧
    (∀ cfg oracle now pend bi fuel s k v, cacheGet s.cache k = some v →
        cacheGet (runBatches cfg oracle now pend bi fuel s).cache k = some v) :=
  ⟨comCache_none_cache_eq, comCache_cache_preserve,
   fun cfg oracle now pend bi fuel s k v hv =>
     runBatches_cache_preserve cfg oracle now pend fuel bi s k v hv⟩

/-- Witness for C8: a concrete pre-existing entry survives a one-batch run
that processes two records. -/
theorem c8_cache_append_only_witness :
    cacheGet [("k", ⟨1, 2, "d", 0, false⟩)] "k" = some ⟨1, 2, "d", 0, false⟩ ∧
    cacheGet (runBatches cfgDemo orcSempreAcha 0 cenarioDupla 0 1
      ⟨[("k", ⟨1, 2, "d", 0, false⟩)], [], ⟨2, 0, 0, 0, 0, none, none⟩, [], none, [], 0⟩).cache
      "k" = some ⟨1, 2, "d", 0, false⟩ :=
  ⟨by decide,
   c8_cache_append_only.2.2 cfgDemo orcSempreAcha 0 cenarioDupla 0 1
     ⟨[("k", ⟨1, 2, "d", 0, false⟩)], [], ⟨2, 0, 0, 0, 0, none, none⟩, [], none, [], 0⟩
     "k" ⟨1, 2, "d", 0, false⟩ (by decide)⟩

/-- One retry sequence (however long) adds exactly 1 to `success + errors`,
leaves `cached`, `processed` and `total` unchanged, and never decreases any
counter. -/
theorem buscarGo_stats (rd : Nat) (oracle : Nat → LookupOutcome) :
    ∀ (fuel tentativa : Nat) (st : Stats),
      (buscarCoordenadasGo rd oracle st tentativa fuel).stats.success +
          (buscarCoordenadasGo rd oracle st tentativa fuel).stats.errors
        = st.success + st.errors + 1 ∧
      (buscarCoordenadasGo rd oracle st tentativa fuel).stats.cached = st.cached ∧
      (buscarCoordenadasGo rd oracle st tentativa fuel).stats.processed = st.processed ∧
      (buscarCoordenadasGo rd oracle st tentativa fuel).stats.total = st.total ∧
      st.success ≤ (buscarCoordenadasGo rd oracle st tentativa fuel).stats.success ∧
      st.errors ≤ (buscarCoordenadasGo rd oracle st tentativa fuel).stats.errors := by
  intro fuel
  induction fuel with
  | zero =>
      intro t st
      cases h : oracle t <;> simp [buscarCoordenadasGo, h] <;> omega
  | succ f ih =>
      intro t st
      cases h : oracle t with
      | found g => simp [buscarCoordenadasGo, h]; omega
      | empty => simp [buscarCoordenadasGo, h]; omega
      | transportError =>
          simp only [buscarCoordenadasGo, h]
          have h2 := ih (t + 1) st
          omega

/-- `buscarCoordenadas` restated from `buscarGo_stats`. -/
theorem buscar_stats (maxRetries rd : Nat) (oracle : Nat → LookupOutcome) (st : Stats) :
    (buscarCoordenadas maxRetries rd oracle st).stats.success +
        (buscarCoordenadas maxRetries rd oracle st).stats.errors
      = st.success + st.errors + 1 ∧
    (buscarCoordenadas maxRetries rd oracle st).stats.cached = st.cached ∧
    (buscarCoordenadas maxRetries rd oracle st).stats.processed = st.processed ∧
    (buscarCoordenadas maxRetries rd oracle st).stats.total = st.total ∧
    st.success ≤ (buscarCoordenadas maxRetries rd oracle st).stats.success ∧
    st.errors ≤ (buscarCoordenadas maxRetries rd oracle st).stats.errors :=
  buscarGo_stats rd oracle (maxRetries - 1) 1 st

/-- One cache-aware resolution adds exactly 1 to `success + errors + cached`
(a cache hit bumps `cached`; a lookup bumps `success` or, once, `errors`),
leaves `processed` and `total` unchanged, and never decreases a counter. -/
theorem comCache_stats (cfg : RunConfig) (oracle : String → Nat → LookupOutcome)
    (cache : Cache) (st : Stats) (e : String) :
    (buscarCoordenadasComCache cfg oracle cache st e).stats.success +
        (buscarCoordenadasComCache cfg oracle cache st e).stats.errors +
        (buscarCoordenadasComCache cfg oracle cache st e).stats.cached
      = st.success + st.errors + st.cached + 1 ∧
    (buscarCoordenadasComCache cfg oracle cache st e).stats.processed = st.processed ∧
    (buscarCoordenadasComCache cfg oracle cache st e).stats.total = st.total ∧
    st.success ≤ (buscarCoordenadasComCache cfg oracle cache st e).stats.success ∧
    st.errors ≤ (buscarCoordenadasComCache cfg oracle cache st e).stats.errors ∧
    st.cached ≤ (buscarCoordenadasComCache cfg oracle cache st e).stats.cached := by
  unfold buscarCoordenadasComCache
  cases hget : cacheGet cache (getCacheKey e) with
  | some w => simp [hget]; omega
  | none =>
      simp only [hget]
      have h := buscar_stats cfg.maxRetries cfg.retryDelay (oracle e) st
      cases hres : (buscarCoordenadas cfg.maxRetries cfg.retryDelay (oracle e) st).resultado with
      | some w => simp only [hres]; omega
      | none => simp only [hres]; omega

/-- The per-record step preserves the accounting identity
`processed = success + errors + cached` and never decreases a counter. -/
theorem processRecord_stats (cfg : RunConfig) (oracle : String → Nat → LookupOutcome)
    (now : Nat) (s : LoopState) (c : Cliente) (hinv : statsInv s.stats) :
    statsInv (processRecord cfg oracle now s c).stats ∧
    statsLe s.stats (processRecord cfg oracle now s c).stats := by
  unfold processRecord
  split
  · exact ⟨hinv, Nat.le_refl _, Nat.le_refl _, Nat.le_refl _, Nat.le_refl _, Nat.le_refl _⟩
  · have h := comCache_stats cfg oracle s.cache s.stats c.endereco
    simp only [statsInv, statsLe] at hinv ⊢
    omega

/-- Batch processing preserves the accounting identity and monotonicity. -/
theorem foldl_stats (cfg : RunConfig) (oracle : String → Nat → LookupOutcome)
    (now : Nat) (lote : List Cliente) :
    ∀ s : LoopState, statsInv s.stats →
      statsInv ((lote.foldl (processRecord cfg oracle now) s)).stats ∧
      statsLe s.stats ((lote.foldl (processRecord cfg oracle now) s)).stats := by
  induction lote with
  | nil =>
      intro s h
      exact ⟨h, Nat.le_refl _, Nat.le_refl _, Nat.le_refl _, Nat.le_refl _, Nat.le_refl _⟩
  | cons c tl ih =>
      intro s h
      have h1 := processRecord_stats cfg oracle now s c h
      have h2 := ih (processRecord cfg oracle now s c) h1.1
      simp only [List.foldl_cons]
      obtain ⟨a1, b1, c1, d1, e1⟩ := h1.2
      obtain ⟨a2, b2, c2, d2, e2⟩ := h2.2
      exact ⟨h2.1, Nat.le_trans a1 a2, Nat.le_trans b1 b2, Nat.le_trans c1 c2,
        Nat.le_trans d1 d2, Nat.le_trans e1 e2⟩

/-- The whole batch loop preserves the accounting identity and
monotonicity (progress saves and cache flushes do not touch the stats). -/
theorem runBatches_stats (cfg : RunConfig) (oracle : String → Nat → LookupOutcome)
    (now : Nat) (pend : List Cliente) :
    ∀ (fuel bi : Nat) (s : LoopState), statsInv s.stats →
      statsInv (runBatches cfg oracle now pend bi fuel s).stats ∧
      statsLe s.stats (runBatches cfg oracle now pend bi fuel s).stats := by
  intro fuel
  induction fuel with
  | zero =>
      intro bi s h
      simp only [runBatches]
      exact ⟨h, Nat.le_refl _, Nat.le_refl _, Nat.le_refl _, Nat.le_refl _, Nat.le_refl _⟩
  | succ f ih =>
      intro bi s h
      simp only [runBatches]
      have h1 := foldl_stats cfg oracle now
        ((pend.drop (bi * cfg.batchSize)).take cfg.batchSize) s h
      have h2 := ih (bi + 1)
        (saveBatchCheckpoint cfg bi
          (((pend.drop (bi * cfg.batchSize)).take cfg.batchSize).foldl
            (processRecord cfg oracle now) s)) h1.1
      obtain ⟨a1, b1, c1, d1, e1⟩ := h1.2
      obtain ⟨a2, b2, c2, d2, e2⟩ := h2.2
      exact ⟨h2.1, Nat.le_trans a1 a2, Nat.le_trans b1 b2, Nat.le_trans c1 c2,
        Nat.le_trans d1 d2, Nat.le_trans e1 e2⟩

/-- A complete run starts from zeroed counters and hence ends satisfying the
accounting identity. -/
theorem processar_stats_inv (cfg : RunConfig) (oracle : String → Nat → LookupOutcome)
    (now : Nat) (clientes : List Cliente) (diskCache : Cache)
    (diskProgress : Option Progress) (resume : Bool) :
    statsInv (processarClientesOtimizado cfg oracle now clientes diskCache
      diskProgress resume).stats := by
  unfold processarClientesOtimizado
  exact (runBatches_stats cfg oracle now _ _ _ _ rfl).1

/-- C10: throughout one run the statistics satisfy
`processed = success + errors + cached` — each processed record bumps exactly
one of `success`, `errors` (once, at the terminal failure of a retry
sequence) or `cached` and then `processed` — and the five counters are
non-decreasing across records and batches; a completed run's final stats
satisfy the identity. -/
theorem c10_stats_accounting :
    (∀ cfg oracle now clientes diskCache diskProgress resume,
        statsInv (processarClientesOtimizado cfg oracle now clientes diskCache
          diskProgress resume).stats) ∧
    (∀ cfg oracle now s c, statsInv s.stats →
        statsInv (processRecord cfg oracle now s c).stats ∧
        statsLe s.stats (processRecord cfg oracle now s c).stats) ∧
    (∀ cfg oracle now pend bi fuel s, statsInv s.stats →
        statsInv (runBatches cfg oracle now pend bi fuel s).stats ∧
        statsLe s.stats (runBatches cfg oracle now pend bi fuel s).stats) :=
  ⟨processar_stats_inv, processRecord_stats,
   fun cfg oracle now pend bi fuel s h =>
     runBatches_stats cfg oracle now pend fuel bi s h⟩

/-- Witness for C10: one concrete record step from a mid-run state. -/
theorem c10_stats_accounting_witness :
    statsInv (⟨2, 1, 1, 0, 0, none, none⟩ : Stats) ∧
    (statsInv (processRecord cfgDemo orcSempreAcha 0
        ⟨[], [], ⟨2, 1, 1, 0, 0, none, none⟩, [], none, [], 0⟩
        (mkCliente 9 "z" "Rua Z")).stats ∧
     statsLe (⟨2, 1, 1, 0, 0, none, none⟩ : Stats)
       (processRecord cfgDemo orcSempreAcha 0
         ⟨[], [], ⟨2, 1, 1, 0, 0, none, none⟩, [], none, [], 0⟩
         (mkCliente 9 "z" "Rua Z")).stats) :=
  ⟨by decide,
   c10_stats_accounting.2.1 cfgDemo orcSempreAcha 0
     ⟨[], [], ⟨2, 1, 1, 0, 0, none, none⟩, [], none, [], 0⟩
     (mkCliente 9 "z" "Rua Z") (by decide)⟩

/-- The space character is whitespace. -/
theorem isWs_space : isWs ' ' = true := rfl

/-- Collapsing whitespace runs commutes with dropping leading whitespace. -/
theorem dropWhile_collapseGo (l : List Char) :
    ∀ b : Bool, (collapseGo b l).dropWhile isWs = collapseGo false (l.dropWhile isWs) := by
  induction l with
  | nil => intro b; simp [collapseGo]
  | cons c r ih =>
      intro b
      cases hws : isWs c with
      | true =>
          cases b with
          | true => simp [collapseGo, hws, ih true]
          | false => simp [collapseGo, hws, isWs_space, ih true]
      | false => simp [collapseGo, hws]

/-- If a list is all whitespace (its trailing-trim is empty), so is its
whitespace-collapsed form. -/
theorem dropTrail_collapseGo_nil (l : List Char) :
    ∀ b : Bool, dropTrailWs l = [] → dropTrailWs (collapseGo b l) = [] := by
  induction l with
  | nil => intro b _; simp [collapseGo, dropTrailWs]
  | cons c r ih =>
      intro b h
      cases hr : dropTrailWs r with
      | cons x xs => simp [dropTrailWs, hr] at h
      | nil =>
          cases hws : isWs c with
          | false => simp [dropTrailWs, hr, hws] at h
          | true =>
              cases b with
              | true =>
                  simp only [collapseGo, hws, if_true]
                  exact ih true hr
              | false =>
                  simp only [collapseGo, hws, if_true, if_false]
                  have hh := ih true hr
                  simp [dropTrailWs, hh, isWs_space]

/-- Conversely, a list whose whitespace-collapsed form trims to empty was
all whitespace. -/
theorem dropTrail_collapseGo_nil_rev (l : List Char) :
    ∀ b : Bool, dropTrailWs (collapseGo b l) = [] → dropTrailWs l = [] := by
  induction l with
  | nil => intro b _; rfl
  | cons c r ih =>
      intro b h
      cases hws : isWs c with
      | false => simp [collapseGo, hws, dropTrailWs] at h
      | true =>
          cases b with
          | true =>
              simp only [collapseGo, hws, if_true] at h
              have hh := ih true h
              simp [dropTrailWs, hws, hh]
          | false =>
              simp only [collapseGo, hws, if_true, if_false] at h
              cases hx : dropTrailWs (collapseGo true r) with
              | cons y ys => simp [dropTrailWs, hx] at h
              | nil =>
                  have hh := ih true hx
                  simp [dropTrailWs, hws, hh]

/-- Collapsing whitespace runs commutes with dropping trailing whitespace. -/
theorem collapseGo_dropTrail (l : List Char) :
    ∀ b : Bool, collapseGo b (dropTrailWs l) = dropTrailWs (collapseGo b l) := by
  induction l with
  | nil => intro b; rfl
  | cons c r ih =>
      intro b
      cases hws : isWs c with
      | false =>
          have h1 : dropTrailWs (c :: r) = c :: dropTrailWs r := by
            simp [dropTrailWs, hws]
          rw [h1]
          simp only [collapseGo, hws, if_false]
          rw [ih false]
          simp [dropTrailWs, hws]
      | true =>
          cases hr : dropTrailWs r with
          | nil =>
              have h1 : dropTrailWs (c :: r) = [] := by simp [dropTrailWs, hws, hr]
              rw [h1, dropTrail_collapseGo_nil (c :: r) b h1]
              rfl
          | cons x xs =>
              have h1 : dropTrailWs (c :: r) = c :: dropTrailWs r := by
                simp [dropTrailWs, hws, hr]
              rw [h1]
              cases b with
              | true =>
                  simp only [collapseGo, hws, if_true]
                  exact ih true
              | false =>
                  simp only [collapseGo, hws, if_true, if_false]
                  cases hx : dropTrailWs (collapseGo true r) with
                  | nil =>
                      exfalso
                      have hh := dropTrail_collapseGo_nil_rev r true hx
                      rw [hh] at hr
                      exact List.noConfusion hr
                  | cons y ys =>
                      simp [dropTrailWs, isWs_space, hx]
                      rw [ih true, hx]

/-- The code's `trim` / `replace(/\s+/g, ' ')` pair commutes. -/
theorem collapseWs_trimWs (l : List Char) :
    collapseWs (trimWs l) = trimWs (collapseWs l) := by
  unfold collapseWs trimWs
  rw [collapseGo_dropTrail (l.dropWhile isWs) false, dropWhile_collapseGo l false]

/-- C9: `getCacheKey` is a total function on strings built from
lower-casing, trimming and collapsing whitespace runs; consequently any two
address strings that differ only in letter case or in whitespace run-length
(equal canonical forms: lower-cased, every whitespace run replaced by one
space) receive the same cache key. -/
theorem c9_key_case_ws (s t : String) (h : canonKey s = canonKey t) :
    getCacheKey s = getCacheKey t := by
  unfold canonKey at h
  unfold getCacheKey getCacheKeyL
  rw [collapseWs_trimWs (lowerList s.data), collapseWs_trimWs (lowerList t.data), h]

/-- Witness for C9: a case/whitespace variant pair maps to one key. -/
theorem c9_key_case_ws_witness :
    canonKey "Av  Brasil" = canonKey "av brasil" ∧
    getCacheKey "Av  Brasil" = getCacheKey "av brasil" :=
  ⟨by decide, c9_key_case_ws "Av  Brasil" "av brasil" (by decide)⟩

end Geocode
